import Mathlib

/-!
Verification of the PSBT version-bridge core of the descriptor-wallet
repository (`psbt/src/modern/psbt.rs`): the Modern (V2) container type
`Psbt`, its constructor `Psbt::with`, and the two conversions
`From<PsbtV0> for Psbt` (Legacy→Modern) and `From<Psbt> for PsbtV0`
(Modern→Legacy).

Machine integers are embedded as `Nat`/`Int` with explicit `% 2^32`
where the 32-bit pattern matters.  The collaborator types `Input`,
`Output`, `PsbtV0`, `PsbtVersion` and `TxError` live outside the core
file and are modelled from the specification, as marked on each.
-/

namespace DescriptorWallet

/-- Raw key of the opaque key-value store (type byte plus opaque key bytes). -/
structure RawKey where
  typ : Nat
  key : List Nat
deriving DecidableEq

/-- Opaque key-value map, used for `proprietary` and `unknown` fields. -/
abbrev RawMap := List (RawKey × List Nat)

/-- Global xpub map: extended public key ↦ (master fingerprint, derivation path);
all three components are opaque values to the core. -/
abbrev XpubMap := List (Nat × (Nat × List Nat))

/-- Reference to the previous output spent by an input. -/
structure OutPoint where
  txid : Nat
  vout : Nat
deriving DecidableEq

/-- A transaction input (bitcoin::TxIn): previous output, script sig,
sequence number and witness, the last two as opaque byte sequences. -/
structure TxIn where
  previous_output : OutPoint
  script_sig : List Nat
  sequence : Nat
  witness : List (List Nat)
deriving DecidableEq

/-- A transaction output (bitcoin::TxOut): value in satoshis and script. -/
structure TxOut where
  value : Nat
  script_pubkey : List Nat
deriving DecidableEq

/-- A bitcoin transaction: signed 32-bit version (an `Int` ranging over
i32), unsigned 32-bit locktime, and ordered inputs and outputs. -/
structure Transaction where
  version : Int
  lock_time : Nat
  input : List TxIn
  output : List TxOut
deriving DecidableEq

/-- Modelled from the spec: the PSBT generation tag, a closed enumeration
with Legacy (V0) and Modern (V2) variants; `toU32` is the wire value
(`PsbtVersion::V0 as u32 = 0`). -/
inductive PsbtVersion where
  | V0
  | V2
deriving DecidableEq

/-- Wire value of a version tag (the Rust `as u32` cast). -/
def PsbtVersion.toU32 : PsbtVersion → Nat
  | .V0 => 0
  | .V2 => 2

/-- Modelled from the spec: the transaction-conversion error type
(`TxError`), signaling a signed-looking input (with its index) or an
out-of-range transaction version (with the offending value). -/
inductive TxError where
  | invalidInput (index : Nat)
  | invalidTxVersion (version : Int)
deriving DecidableEq

/-- Modelled from the spec: the legacy (V0) per-input PSBT field set,
treated as opaque signing metadata carried in unknown/proprietary maps. -/
structure InputV0 where
  proprietary : RawMap
  unknown : RawMap
deriving DecidableEq

/-- Modelled from the spec: the legacy (V0) per-output PSBT field set. -/
structure OutputV0 where
  proprietary : RawMap
  unknown : RawMap
deriving DecidableEq

/-- Modelled from the spec: a Modern Input Record — positional index, the
legacy-shaped PSBT fields, the bare transaction input, and an optional
declared locktime requirement (set by signers, absent on construction). -/
structure Input where
  index : Nat
  psbtFields : InputV0
  txin : TxIn
  required_locktime : Option Nat
deriving DecidableEq

/-- Modelled from the spec: a Modern Output Record — positional index,
legacy-shaped PSBT fields, and the bare transaction output. -/
structure Output where
  index : Nat
  psbtFields : OutputV0
  txout : TxOut
deriving DecidableEq

/-- Modelled from the spec: `Input::new(index, txin)` — builds a fresh
Input Record from a raw transaction input, failing with the
malformed-input error (carrying the index) when the input already has
script-sig or witness data. -/
def Input.new (index : Nat) (txin : TxIn) : Except TxError Input :=
  if txin.script_sig = [] ∧ txin.witness = [] then
    .ok { index, psbtFields := ⟨[], []⟩, txin, required_locktime := none }
  else
    .error (.invalidInput index)

/-- Modelled from the spec: `Input::with(index, v0, txin)` — pairs a
legacy PSBT input with its transaction counterpart; no per-input locktime
requirement exists in the legacy shape, so none is declared. -/
def Input.with' (index : Nat) (v0 : InputV0) (txin : TxIn) : Input :=
  { index, psbtFields := v0, txin, required_locktime := none }

/-- Modelled from the spec: `Input::locktime` — the input's declared
locktime requirement if present, else absence. -/
def Input.locktime (i : Input) : Option Nat :=
  i.required_locktime

/-- Modelled from the spec: `Input::split` — decomposes the record into
its legacy PSBT fields and its bare transaction input; the exact
structural inverse of `Input.with'`. -/
def Input.split (i : Input) : InputV0 × TxIn :=
  (i.psbtFields, i.txin)

/-- Modelled from the spec: `Output::new(index, txout)`; outputs carry no
signature data so construction cannot fail. -/
def Output.new (index : Nat) (txout : TxOut) : Output :=
  { index, psbtFields := ⟨[], []⟩, txout }

/-- Modelled from the spec: `Output::with(index, v0, txout)`. -/
def Output.with' (index : Nat) (v0 : OutputV0) (txout : TxOut) : Output :=
  { index, psbtFields := v0, txout }

/-- Modelled from the spec: `Output::split`, structural inverse of
`Output.with'`. -/
def Output.split (o : Output) : OutputV0 × TxOut :=
  (o.psbtFields, o.txout)

/-- The Modern (V2) PSBT container (`struct Psbt`, psbt.rs lines 33–61). -/
structure Psbt where
  psbt_version : PsbtVersion
  xpub : XpubMap
  tx_version : Nat
  fallback_locktime : Nat
  inputs : List Input
  outputs : List Output
  proprietary : RawMap
  unknown : RawMap
deriving DecidableEq

/-- Modelled from the spec: the Legacy (V0) PSBT container shape, with the
fields the core reads and writes — a complete embedded unsigned
transaction, a wire version number, the global maps, and the parallel
arrays of legacy input/output records. -/
structure PsbtV0 where
  unsigned_tx : Transaction
  version : Nat
  xpub : XpubMap
  proprietary : RawMap
  unknown : RawMap
  inputs : List InputV0
  outputs : List OutputV0
deriving DecidableEq

/-- Rust `i32 → u32` `try_into()`: a value conversion that fails exactly
on negative values (every non-negative i32 fits in u32). -/
def u32TryFromI32 (v : Int) : Option Nat :=
  if 0 ≤ v then some v.toNat else none

/-- Rust `u32::from_be_bytes(v.to_be_bytes())` for an i32 `v`: the 32-bit
two's-complement pattern of `v` read as an unsigned value. -/
def u32FromI32Bits (v : Int) : Nat :=
  (v % (2 : Int) ^ 32).toNat

/-- Rust `i32::from_be_bytes(n.to_be_bytes())` for a u32 `n`: the 32-bit
pattern of `n` read back as a signed value. -/
def i32FromU32Bits (n : Nat) : Int :=
  if n < 2 ^ 31 then (n : Int) else (n : Int) - 2 ^ 32

/-- The input-wrapping loop of `Psbt::with` (psbt.rs lines 67–72):
`tx.input.into_iter().enumerate().map(|(i, txin)| Input::new(i, txin))
.collect::<Result<_, _>>()`, short-circuiting at the first failure. -/
def newInputs (index : Nat) : List TxIn → Except TxError (List Input)
  | [] => .ok []
  | txin :: rest =>
    match Input.new index txin with
    | .error e => .error e
    | .ok i =>
      match newInputs (index + 1) rest with
      | .error e => .error e
      | .ok rest' => .ok (i :: rest')

/-- The output-wrapping loop of `Psbt::with` (psbt.rs lines 73–78). -/
def newOutputs (index : Nat) : List TxOut → List Output
  | [] => []
  | txout :: rest => Output.new index txout :: newOutputs (index + 1) rest

/-- `Psbt::with(tx, psbt_version)` (psbt.rs lines 66–95): wraps every
input (failing on the first signed-looking one) and every output, then
converts the signed transaction version by value (`try_into`), failing
with `InvalidTxVersion` when it does not convert. -/
def Psbt.with' (tx : Transaction) (psbt_version : PsbtVersion) : Except TxError Psbt :=
  match newInputs 0 tx.input with
  | .error e => .error e
  | .ok inputs =>
    let outputs := newOutputs 0 tx.output
    match u32TryFromI32 tx.version with
    | none => .error (.invalidTxVersion tx.version)
    | some tx_version =>
      .ok { psbt_version
            xpub := []
            tx_version
            fallback_locktime := tx.lock_time
            inputs
            outputs
            proprietary := []
            unknown := [] }

/-- The input-pairing loop of Legacy→Modern (psbt.rs lines 102–108):
`v0.inputs.into_iter().zip(tx.input).enumerate()
.map(|(i, (input, txin))| Input::with(i, input, txin))`, applied to the
already-zipped pair list. -/
def withInputs (index : Nat) : List (InputV0 × TxIn) → List Input
  | [] => []
  | (a, b) :: rest => Input.with' index a b :: withInputs (index + 1) rest

/-- The output-pairing loop of Legacy→Modern (psbt.rs lines 110–116). -/
def withOutputs (index : Nat) : List (OutputV0 × TxOut) → List Output
  | [] => []
  | (a, b) :: rest => Output.with' index a b :: withOutputs (index + 1) rest

/-- `impl From<PsbtV0> for Psbt` (psbt.rs lines 98–132): Legacy→Modern.
Zips records with transaction counterparts positionally, reinterprets the
transaction version bit-for-bit, takes the transaction locktime as
fallback, copies the opaque maps, and tags the result `PsbtVersion::V0`
(the source comment: serialize back in the version deserialized from). -/
def Psbt.fromV0 (v0 : PsbtV0) : Psbt :=
  let tx := v0.unsigned_tx
  { psbt_version := PsbtVersion.V0
    xpub := v0.xpub
    tx_version := u32FromI32Bits tx.version
    fallback_locktime := tx.lock_time
    inputs := withInputs 0 (v0.inputs.zip tx.input)
    outputs := withOutputs 0 (v0.outputs.zip tx.output)
    proprietary := v0.proprietary
    unknown := v0.unknown }

/-- `impl From<Psbt> for PsbtV0` (psbt.rs lines 134–165): Modern→Legacy.
Resolves the locktime as the maximum declared per-input requirement
(`filter_map(Input::locktime).max()`), defaulting to the fallback;
reinterprets the version bits back to signed; splits every record into
its legacy PSBT half and its transaction half; copies the opaque maps;
and writes wire version `PsbtVersion::V0 as u32`. -/
def PsbtV0.fromModern (psbt : Psbt) : PsbtV0 :=
  let version := i32FromU32Bits psbt.tx_version
  let lock_time := ((psbt.inputs.filterMap Input.locktime).max?).getD psbt.fallback_locktime
  let inputPairs := (psbt.inputs.map Input.split).unzip
  let outputPairs := (psbt.outputs.map Output.split).unzip
  { unsigned_tx :=
      { version
        lock_time
        input := inputPairs.2
        output := outputPairs.2 }
    version := PsbtVersion.toU32 PsbtVersion.V0
    xpub := psbt.xpub
    proprietary := psbt.proprietary
    unknown := psbt.unknown
    inputs := inputPairs.1
    outputs := outputPairs.1 }

/-- Spec invariant 1 on Modern inputs, as a decidable check: every record
carries its positional index; additionally no record declares a locktime
requirement (the state every record has right after either constructor). -/
def inputsFreshFrom : Nat → List Input → Bool
  | _, [] => true
  | k, i :: rest =>
    decide (i.index = k) && decide (i.required_locktime = none)
      && inputsFreshFrom (k + 1) rest

/-- Spec invariant 1 on Modern outputs, as a decidable check: every
record carries its positional index. -/
def outputsIndexedFrom : Nat → List Output → Bool
  | _, [] => true
  | k, o :: rest => decide (o.index = k) && outputsIndexedFrom (k + 1) rest

end DescriptorWallet
namespace DescriptorWallet

/-! ### Concrete test vectors -/

/-- An unsigned transaction input. -/
def txIn0 : TxIn :=
  { previous_output := ⟨0, 0⟩
    script_sig := []
    sequence := 4294967295
    witness := [] }

/-- A transaction output. -/
def txOut0 : TxOut :=
  { value := 5
    script_pubkey := [1] }

/-- A transaction input already carrying script-sig data. -/
def badIn : TxIn :=
  { previous_output := ⟨0, 1⟩
    script_sig := [22]
    sequence := 0
    witness := [] }

/-- A legacy container with one input record, one output record, and
non-empty opaque maps, consistent with its embedded transaction. -/
def exV0 : PsbtV0 :=
  { unsigned_tx := { version := 2, lock_time := 7, input := [txIn0], output := [txOut0] }
    version := 0
    xpub := [(1, (2, [3]))]
    proprietary := [(⟨252, [10]⟩, [222, 173])]
    unknown := [(⟨153, []⟩, [190, 239])]
    inputs := [⟨[(⟨252, [11]⟩, [1])], [(⟨153, [1]⟩, [2])]⟩]
    outputs := [⟨[], [(⟨153, [2]⟩, [4])]⟩] }

/-- A legacy container whose embedded transaction has version -1. -/
def exV0neg : PsbtV0 :=
  { unsigned_tx := { version := -1, lock_time := 0, input := [], output := [] }
    version := 0
    xpub := []
    proprietary := []
    unknown := []
    inputs := []
    outputs := [] }

/-- An empty legacy container. -/
def emptyV0 : PsbtV0 :=
  { unsigned_tx := { version := 1, lock_time := 0, input := [], output := [] }
    version := 0
    xpub := []
    proprietary := []
    unknown := []
    inputs := []
    outputs := [] }

/-- A legacy container with two input records but only one transaction
input: the structural mismatch the spec requires to be rejected. -/
def mismatchedV0 : PsbtV0 :=
  { unsigned_tx := { version := 2, lock_time := 0, input := [txIn0], output := [] }
    version := 0
    xpub := []
    proprietary := []
    unknown := []
    inputs := [⟨[], []⟩, ⟨[], []⟩]
    outputs := [] }

/-- A Modern container in the state produced by construction: V0 tag,
positional indices, no declared locktimes. -/
def exModernFresh : Psbt :=
  { psbt_version := PsbtVersion.V0
    xpub := [(4, (5, [6]))]
    tx_version := 4294967295
    fallback_locktime := 9
    inputs := [{ index := 0, psbtFields := ⟨[], []⟩, txin := txIn0, required_locktime := none }]
    outputs := [{ index := 0, psbtFields := ⟨[], []⟩, txout := txOut0 }]
    proprietary := []
    unknown := [] }

/-- A Modern container with a V2 tag and a declared input locktime
exceeding the fallback: the C1 round trip alters it. -/
def cexModern : Psbt :=
  { psbt_version := PsbtVersion.V2
    xpub := []
    tx_version := 2
    fallback_locktime := 50
    inputs := [{ index := 0, psbtFields := ⟨[], []⟩, txin := txIn0, required_locktime := some 500 }]
    outputs := []
    proprietary := []
    unknown := [] }

/-- A Modern container with declared locktimes {100, 500, absent} and
fallback locktime 50 (the spec's locktime-resolution example). -/
def lockPsbtEx : Psbt :=
  { psbt_version := PsbtVersion.V2
    xpub := []
    tx_version := 2
    fallback_locktime := 50
    inputs :=
      [{ index := 0, psbtFields := ⟨[], []⟩, txin := txIn0, required_locktime := some 100 },
       { index := 1, psbtFields := ⟨[], []⟩, txin := txIn0, required_locktime := some 500 },
       { index := 2, psbtFields := ⟨[], []⟩, txin := txIn0, required_locktime := none }]
    outputs := []
    proprietary := []
    unknown := [] }

/-- A Modern container with no declared locktimes. -/
def noLockPsbtEx : Psbt :=
  { psbt_version := PsbtVersion.V2
    xpub := []
    tx_version := 2
    fallback_locktime := 50
    inputs :=
      [{ index := 0, psbtFields := ⟨[], []⟩, txin := txIn0, required_locktime := none },
       { index := 1, psbtFields := ⟨[], []⟩, txin := txIn0, required_locktime := none }]
    outputs := []
    proprietary := []
    unknown := [] }

/-- An unsigned transaction with version -1. -/
def negTx : Transaction :=
  { version := -1
    lock_time := 0
    input := []
    output := [] }

/-- An unsigned transaction with version 1 and no inputs or outputs. -/
def v1Tx : Transaction :=
  { version := 1
    lock_time := 0
    input := []
    output := [] }

/-- The container `Psbt::with` builds from `v1Tx` under the Legacy tag. -/
def v1Psbt : Psbt :=
  { psbt_version := PsbtVersion.V0
    xpub := []
    tx_version := 1
    fallback_locktime := 0
    inputs := []
    outputs := []
    proprietary := []
    unknown := [] }

/-- A transaction whose second input already carries script-sig data. -/
def sigTx : Transaction :=
  { version := 1
    lock_time := 0
    input := [txIn0, badIn]
    output := [] }

/-- A fully unsigned transaction with one input and one output. -/
def cleanTx : Transaction :=
  { version := 1
    lock_time := 0
    input := [txIn0]
    output := [txOut0] }

end DescriptorWallet
namespace DescriptorWallet

/-! ### Helper lemmas -/

theorem withInputs_map_split (l : List (InputV0 × TxIn)) :
    ∀ k, (withInputs k l).map Input.split = l := by
  induction l with
  | nil => intro k; rfl
  | cons hd tl ih =>
    intro k
    obtain ⟨a, b⟩ := hd
    simp [withInputs, Input.split, Input.with', ih (k + 1)]

theorem withOutputs_map_split (l : List (OutputV0 × TxOut)) :
    ∀ k, (withOutputs k l).map Output.split = l := by
  induction l with
  | nil => intro k; rfl
  | cons hd tl ih =>
    intro k
    obtain ⟨a, b⟩ := hd
    simp [withOutputs, Output.split, Output.with', ih (k + 1)]

theorem withInputs_locktimes (l : List (InputV0 × TxIn)) :
    ∀ k, (withInputs k l).filterMap Input.locktime = [] := by
  induction l with
  | nil => intro k; rfl
  | cons hd tl ih =>
    intro k
    obtain ⟨a, b⟩ := hd
    simp [withInputs, Input.locktime, Input.with', ih (k + 1)]

theorem withInputs_length (l : List (InputV0 × TxIn)) :
    ∀ k, (withInputs k l).length = l.length := by
  induction l with
  | nil => intro k; rfl
  | cons hd tl ih =>
    intro k
    obtain ⟨a, b⟩ := hd
    simp [withInputs, ih (k + 1)]

theorem withOutputs_length (l : List (OutputV0 × TxOut)) :
    ∀ k, (withOutputs k l).length = l.length := by
  induction l with
  | nil => intro k; rfl
  | cons hd tl ih =>
    intro k
    obtain ⟨a, b⟩ := hd
    simp [withOutputs, ih (k + 1)]

theorem i32_of_u32_of_i32 (v : Int) (h1 : -(2 : Int) ^ 31 ≤ v) (h2 : v < 2 ^ 31) :
    i32FromU32Bits (u32FromI32Bits v) = v := by
  unfold i32FromU32Bits u32FromI32Bits
  split <;> omega

theorem u32_of_i32_of_u32 (n : Nat) (h : n < 2 ^ 32) :
    u32FromI32Bits (i32FromU32Bits n) = n := by
  unfold i32FromU32Bits u32FromI32Bits
  split <;> omega

theorem inputsFresh_with_back (l : List Input) :
    ∀ k, inputsFreshFrom k l = true →
      withInputs k (l.map fun i => (i.psbtFields, i.txin)) = l := by
  induction l with
  | nil => intro k _; rfl
  | cons hd tl ih =>
    intro k h
    simp only [inputsFreshFrom, Bool.and_eq_true, decide_eq_true_eq] at h
    obtain ⟨⟨hidx, hlk⟩, hrest⟩ := h
    obtain ⟨i, pf, ti, rl⟩ := hd
    simp only at hidx hlk
    subst hidx hlk
    simp [withInputs, Input.with', ih _ hrest]

theorem inputsFresh_locktimes (l : List Input) :
    ∀ k, inputsFreshFrom k l = true → l.filterMap Input.locktime = [] := by
  induction l with
  | nil => intro k _; rfl
  | cons hd tl ih =>
    intro k h
    simp only [inputsFreshFrom, Bool.and_eq_true, decide_eq_true_eq] at h
    obtain ⟨⟨hidx, hlk⟩, hrest⟩ := h
    simp [Input.locktime, hlk, ih _ hrest]

theorem outputsIndexed_with_back (l : List Output) :
    ∀ k, outputsIndexedFrom k l = true →
      withOutputs k (l.map fun o => (o.psbtFields, o.txout)) = l := by
  induction l with
  | nil => intro k _; rfl
  | cons hd tl ih =>
    intro k h
    simp only [outputsIndexedFrom, Bool.and_eq_true, decide_eq_true_eq] at h
    obtain ⟨hidx, hrest⟩ := h
    obtain ⟨i, pf, t⟩ := hd
    simp only at hidx
    subst hidx
    simp [withOutputs, Output.with', ih _ hrest]

theorem newInputs_ok (l : List TxIn) :
    ∀ k, (∀ u ∈ l, u.script_sig = [] ∧ u.witness = []) →
      ∃ is, newInputs k l = .ok is ∧ is.length = l.length ∧
        ∀ j : Nat, is[j]? = (l[j]?).map fun t =>
          ({ index := k + j, psbtFields := ⟨[], []⟩, txin := t, required_locktime := none } : Input) := by
  induction l with
  | nil =>
    intro k _
    exact ⟨[], rfl, rfl, fun j => by simp⟩
  | cons hd tl ih =>
    intro k h
    have hhd := h hd (List.mem_cons_self hd tl)
    have htl : ∀ u ∈ tl, u.script_sig = [] ∧ u.witness = [] :=
      fun u hu => h u (List.mem_cons_of_mem hd hu)
    obtain ⟨is, hok, hlen, hget⟩ := ih (k + 1) htl
    refine ⟨{ index := k, psbtFields := ⟨[], []⟩, txin := hd, required_locktime := none } :: is, ?_, ?_, ?_⟩
    · simp [newInputs, Input.new, hhd, hok]
    · simp [hlen]
    · intro j
      cases j with
      | zero => simp
      | succ j' =>
        simp only [List.getElem?_cons_succ, hget j']
        have : k + 1 + j' = k + (j' + 1) := by omega
        rw [this]

theorem newInputs_error (l : List TxIn) :
    ∀ k j t, l[j]? = some t → ¬(t.script_sig = [] ∧ t.witness = []) →
      (∀ u ∈ l.take j, u.script_sig = [] ∧ u.witness = []) →
      newInputs k l = .error (.invalidInput (k + j)) := by
  induction l with
  | nil => intro k j t hj; simp at hj
  | cons hd tl ih =>
    intro k j t hj hbad hpre
    cases j with
    | zero =>
      simp only [List.getElem?_cons_zero, Option.some.injEq] at hj
      subst hj
      simp [newInputs, Input.new, hbad]
    | succ j' =>
      simp only [List.getElem?_cons_succ] at hj
      have hhd : hd.script_sig = [] ∧ hd.witness = [] := by
        have : hd ∈ (hd :: tl).take (j' + 1) := by
          rw [List.take_succ_cons]
          exact List.mem_cons_self _ _
        exact hpre hd this
      have hpre' : ∀ u ∈ tl.take j', u.script_sig = [] ∧ u.witness = [] := by
        intro u hu
        refine hpre u ?_
        rw [List.take_succ_cons]
        exact List.mem_cons_of_mem _ hu
      have := ih (k + 1) j' t hj hbad hpre'
      simp only [newInputs, Input.new, hhd, and_self, if_true, this]
      have heq : k + 1 + j' = k + (j' + 1) := by omega
      rw [heq]

theorem newOutputs_getElem (l : List TxOut) :
    ∀ (k : Nat) (j : Nat), (newOutputs k l)[j]? = (l[j]?).map fun t =>
      ({ index := k + j, psbtFields := ⟨[], []⟩, txout := t } : Output) := by
  induction l with
  | nil => intro k j; simp [newOutputs]
  | cons hd tl ih =>
    intro k j
    cases j with
    | zero => simp [newOutputs, Output.new]
    | succ j' =>
      simp only [newOutputs, List.getElem?_cons_succ, ih (k + 1) j']
      have : k + 1 + j' = k + (j' + 1) := by omega
      rw [this]

theorem newOutputs_length (l : List TxOut) :
    ∀ k, (newOutputs k l).length = l.length := by
  induction l with
  | nil => intro k; rfl
  | cons hd tl ih => intro k; simp [newOutputs, ih (k + 1)]

theorem legacy_modern_legacy (v0 : PsbtV0)
    (hin : v0.inputs.length = v0.unsigned_tx.input.length)
    (hout : v0.outputs.length = v0.unsigned_tx.output.length)
    (hver : v0.version = 0)
    (h1 : -(2 : Int) ^ 31 ≤ v0.unsigned_tx.version)
    (h2 : v0.unsigned_tx.version < 2 ^ 31) :
    PsbtV0.fromModern (Psbt.fromV0 v0) = v0 := by
  obtain ⟨⟨tv, lt, txi, txo⟩, ver, xp, pr, un, ins, outs⟩ := v0
  simp only at hin hout hver h1 h2
  simp only [Psbt.fromV0, PsbtV0.fromModern, withInputs_map_split, withOutputs_map_split,
    withInputs_locktimes, List.max?_nil, Option.getD_none, List.unzip_eq_map,
    i32_of_u32_of_i32 tv h1 h2, PsbtVersion.toU32]
  rw [List.map_fst_zip ins txi (le_of_eq hin), List.map_snd_zip ins txi (ge_of_eq hin),
    List.map_fst_zip outs txo (le_of_eq hout), List.map_snd_zip outs txo (ge_of_eq hout)]
  simp [hver]

theorem modern_legacy_modern (p : Psbt)
    (hv : p.psbt_version = PsbtVersion.V0)
    (hn : p.tx_version < 2 ^ 32)
    (hi : inputsFreshFrom 0 p.inputs = true)
    (ho : outputsIndexedFrom 0 p.outputs = true) :
    Psbt.fromV0 (PsbtV0.fromModern p) = p := by
  obtain ⟨pv, xp, tvn, flt, ins, outs, pr, un⟩ := p
  simp only at hv hn hi ho
  subst hv
  simp only [PsbtV0.fromModern, Psbt.fromV0, List.unzip_eq_map, List.map_map,
    inputsFresh_locktimes ins 0 hi, List.max?_nil, Option.getD_none,
    u32_of_i32_of_u32 tvn hn]
  rw [show (Prod.fst ∘ Input.split) = (fun i : Input => i.psbtFields) from rfl,
    show (Prod.snd ∘ Input.split) = (fun i : Input => i.txin) from rfl,
    show (Prod.fst ∘ Output.split) = (fun o : Output => o.psbtFields) from rfl,
    show (Prod.snd ∘ Output.split) = (fun o : Output => o.txout) from rfl,
    List.zip_map', List.zip_map']
  rw [inputsFresh_with_back ins 0 hi, outputsIndexed_with_back outs 0 ho]

end DescriptorWallet
namespace DescriptorWallet

/-! ### Claim theorems -/

/-- C1: the two version conversions are mutual inverses up to the version
tag, fields restored on the round trip back — as stated this fails (see
the counterexample); amended: Legacy→Modern→Legacy is the identity on
legacy containers whose record sequences match their embedded
transaction, whose wire version is 0 and whose transaction version is in
i32 range; Modern→Legacy→Modern is the identity on Modern containers
tagged V0, with a 32-bit tx_version, correctly indexed records and no
declared per-input locktime (otherwise the tag is forced to V0, the
fallback locktime is overwritten by the resolved locktime, and declared
locktimes are cleared). -/
theorem C1_version_bridge_round_trip :
    (∀ v0 : PsbtV0,
      v0.inputs.length = v0.unsigned_tx.input.length →
      v0.outputs.length = v0.unsigned_tx.output.length →
      v0.version = 0 →
      -(2 : Int) ^ 31 ≤ v0.unsigned_tx.version →
      v0.unsigned_tx.version < 2 ^ 31 →
      PsbtV0.fromModern (Psbt.fromV0 v0) = v0) ∧
    (∀ p : Psbt,
      p.psbt_version = PsbtVersion.V0 →
      p.tx_version < 2 ^ 32 →
      inputsFreshFrom 0 p.inputs = true →
      outputsIndexedFrom 0 p.outputs = true →
      Psbt.fromV0 (PsbtV0.fromModern p) = p) :=
  ⟨legacy_modern_legacy, modern_legacy_modern⟩

/-- C1 witness: both directions at concrete containers. -/
theorem C1_version_bridge_round_trip_witness :
    PsbtV0.fromModern (Psbt.fromV0 exV0) = exV0 ∧
    Psbt.fromV0 (PsbtV0.fromModern exModernFresh) = exModernFresh :=
  ⟨C1_version_bridge_round_trip.1 exV0 (by decide) (by decide) (by decide)
      (by decide) (by decide),
   C1_version_bridge_round_trip.2 exModernFresh (by decide) (by decide)
      (by decide) (by decide)⟩

/-- C1 counterexample: a Modern container with a declared input locktime
and a V2 tag round-trips to a container differing in fallback locktime
and input records, and its version tag is not restored. -/
theorem C1_version_bridge_round_trip_counterexample :
    (Psbt.fromV0 (PsbtV0.fromModern cexModern)).fallback_locktime ≠ cexModern.fallback_locktime ∧
    (Psbt.fromV0 (PsbtV0.fromModern cexModern)).inputs ≠ cexModern.inputs ∧
    (Psbt.fromV0 (PsbtV0.fromModern cexModern)).psbt_version ≠ cexModern.psbt_version := by
  decide

/-- C2: Modern→Legacy resolves the reconstructed transaction's locktime
to the maximum declared per-input locktime (absent ones ignored), and to
the fallback locktime when no input declares one. -/
theorem C2_locktime_resolution (p : Psbt) :
    (p.inputs.filterMap Input.locktime = [] →
      (PsbtV0.fromModern p).unsigned_tx.lock_time = p.fallback_locktime) ∧
    (p.inputs.filterMap Input.locktime ≠ [] →
      (PsbtV0.fromModern p).unsigned_tx.lock_time ∈ p.inputs.filterMap Input.locktime ∧
      ∀ x ∈ p.inputs.filterMap Input.locktime,
        x ≤ (PsbtV0.fromModern p).unsigned_tx.lock_time) := by
  have hbase : (PsbtV0.fromModern p).unsigned_tx.lock_time
      = ((p.inputs.filterMap Input.locktime).max?).getD p.fallback_locktime := rfl
  constructor
  · intro h
    rw [hbase, h]
    rfl
  · intro h
    rcases hmax : (p.inputs.filterMap Input.locktime).max? with _ | m
    · exact absurd (List.max?_eq_none_iff.mp hmax) h
    · rw [hbase, hmax]
      refine ⟨List.max?_mem (fun a b => max_choice a b) hmax, ?_⟩
      intro x hx
      exact (List.max?_le_iff (fun _ _ _ => max_le_iff) hmax).mp le_rfl x hx

/-- C2 witness: locktimes {100, 500, absent} with fallback 50 resolve to
500; all-absent resolves to the fallback. -/
theorem C2_locktime_resolution_witness :
    ((lockPsbtEx.inputs.filterMap Input.locktime ≠ [] →
      (PsbtV0.fromModern lockPsbtEx).unsigned_tx.lock_time ∈
        lockPsbtEx.inputs.filterMap Input.locktime ∧
      ∀ x ∈ lockPsbtEx.inputs.filterMap Input.locktime,
        x ≤ (PsbtV0.fromModern lockPsbtEx).unsigned_tx.lock_time) ∧
     (noLockPsbtEx.inputs.filterMap Input.locktime = [] →
      (PsbtV0.fromModern noLockPsbtEx).unsigned_tx.lock_time = noLockPsbtEx.fallback_locktime)) :=
  ⟨(C2_locktime_resolution lockPsbtEx).2, (C2_locktime_resolution noLockPsbtEx).1⟩

/-- C3: across the Version Bridge the transaction version is
reinterpreted bit-for-bit: Legacy→Modern stores the 32-bit
two's-complement pattern of the signed version, and Modern→Legacy
recovers the original signed value exactly. -/
theorem C3_tx_version_bit_pattern (v0 : PsbtV0)
    (h1 : -(2 : Int) ^ 31 ≤ v0.unsigned_tx.version)
    (h2 : v0.unsigned_tx.version < 2 ^ 31) :
    (((Psbt.fromV0 v0).tx_version : Nat) : Int) = v0.unsigned_tx.version % (2 : Int) ^ 32 ∧
    (PsbtV0.fromModern (Psbt.fromV0 v0)).unsigned_tx.version = v0.unsigned_tx.version := by
  constructor
  · show (((u32FromI32Bits v0.unsigned_tx.version : Nat)) : Int) = _
    unfold u32FromI32Bits
    omega
  · show i32FromU32Bits (u32FromI32Bits v0.unsigned_tx.version) = _
    exact i32_of_u32_of_i32 _ h1 h2

/-- C3 witness: transaction version -1 is stored as 0xFFFFFFFF and
recovered exactly. -/
theorem C3_tx_version_bit_pattern_witness :
    (((Psbt.fromV0 exV0neg).tx_version : Nat) : Int) = exV0neg.unsigned_tx.version % (2 : Int) ^ 32 ∧
    (PsbtV0.fromModern (Psbt.fromV0 exV0neg)).unsigned_tx.version = exV0neg.unsigned_tx.version :=
  C3_tx_version_bit_pattern exV0neg (by decide) (by decide)

/-- C4: the claim says `Psbt::with` reinterprets the version bit-for-bit
and succeeds for every gated transaction including negative versions —
refuted by the counterexample (the source uses a value-converting
`try_into`); amended: for transactions whose inputs all pass the unsigned
gate, construction succeeds storing the version by value exactly when it
is non-negative, and fails with the invalid-transaction-version error
carrying the offending value exactly when it is negative. -/
theorem C4_tx_version_value_conversion (tx : Transaction) (v : PsbtVersion)
    (hgate : ∀ u ∈ tx.input, u.script_sig = [] ∧ u.witness = []) :
    (0 ≤ tx.version →
      ∃ p, Psbt.with' tx v = .ok p ∧ ((p.tx_version : Nat) : Int) = tx.version) ∧
    (tx.version < 0 →
      Psbt.with' tx v = .error (.invalidTxVersion tx.version)) := by
  obtain ⟨is, hok, -, -⟩ := newInputs_ok tx.input 0 hgate
  constructor
  · intro hpos
    have hv : u32TryFromI32 tx.version = some tx.version.toNat := by
      unfold u32TryFromI32
      rw [if_pos hpos]
    refine ⟨⟨v, [], tx.version.toNat, tx.lock_time, is, newOutputs 0 tx.output, [], []⟩, ?_, ?_⟩
    · unfold Psbt.with'
      rw [hok, hv]
    · show ((tx.version.toNat : Nat) : Int) = tx.version
      omega
  · intro hneg
    have hv : u32TryFromI32 tx.version = none := by
      unfold u32TryFromI32
      rw [if_neg (by omega)]
    unfold Psbt.with'
    rw [hok, hv]

/-- C4 witness: version 1 converts by value; version -1 is rejected. -/
theorem C4_tx_version_value_conversion_witness :
    (∃ p, Psbt.with' v1Tx PsbtVersion.V2 = .ok p ∧ ((p.tx_version : Nat) : Int) = v1Tx.version) ∧
    Psbt.with' negTx PsbtVersion.V2 = .error (.invalidTxVersion negTx.version) :=
  ⟨(C4_tx_version_value_conversion v1Tx PsbtVersion.V2 (by decide)).1 (by decide),
   (C4_tx_version_value_conversion negTx PsbtVersion.V2 (by decide)).2 (by decide)⟩

/-- C4 counterexample: the fully-unsigned transaction with version -1
(whose 32-bit pattern is 0xFFFFFFFF) is rejected by `Psbt::with` with the
invalid-version error instead of succeeding with the bit pattern. -/
theorem C4_tx_version_value_conversion_counterexample :
    (∀ u ∈ negTx.input, u.script_sig = [] ∧ u.witness = []) ∧
    Psbt.with' negTx PsbtVersion.V2 = .error (.invalidTxVersion (-1)) := by
  constructor
  · intro u hu
    simp [negTx] at hu
  · rfl

/-- C5: the spec requires Legacy→Modern to fail on a record/transaction
length mismatch; the code instead zips to the shorter length: at the
concrete mismatched container (two legacy input records, one transaction
input) the conversion returns normally with a single input record. -/
theorem C5_length_mismatch_truncates :
    mismatchedV0.inputs.length = 2 ∧
    mismatchedV0.unsigned_tx.input.length = 1 ∧
    (Psbt.fromV0 mismatchedV0).inputs.length = 1 := by
  decide

/-- C6: the claim says Legacy→Modern tags the result Modern — refuted
(the source deliberately tags it V0 to re-serialize in the generation it
came from); amended: for every legacy container the result's version tag
is Legacy (V0). -/
theorem C6_version_tag_legacy (v0 : PsbtV0) :
    (Psbt.fromV0 v0).psbt_version = PsbtVersion.V0 := rfl

/-- C6 counterexample: on a concrete legacy container the resulting tag
is not Modern. -/
theorem C6_version_tag_legacy_counterexample :
    (Psbt.fromV0 emptyV0).psbt_version ≠ PsbtVersion.V2 := by
  decide

/-- C7: both directions of the Version Bridge copy the xpub, proprietary
and unknown maps into the result completely unchanged. -/
theorem C7_opaque_maps_copied (v0 : PsbtV0) (p : Psbt) :
    (Psbt.fromV0 v0).xpub = v0.xpub ∧
    (Psbt.fromV0 v0).proprietary = v0.proprietary ∧
    (Psbt.fromV0 v0).unknown = v0.unknown ∧
    (PsbtV0.fromModern p).xpub = p.xpub ∧
    (PsbtV0.fromModern p).proprietary = p.proprietary ∧
    (PsbtV0.fromModern p).unknown = p.unknown :=
  ⟨rfl, rfl, rfl, rfl, rfl, rfl⟩

/-- C8: `Psbt::with` is atomic with respect to the unsigned-input gate:
if the record at the first offending index fails the gate the whole
construction returns that input's error and no container; if every input
passes (and the version fits) it returns a container wrapping every
transaction input and output into a record at its positional index. -/
theorem C8_unsigned_gate_atomicity :
    (∀ (tx : Transaction) (v : PsbtVersion) (j : Nat) (t : TxIn),
      tx.input[j]? = some t →
      ¬(t.script_sig = [] ∧ t.witness = []) →
      (∀ u ∈ tx.input.take j, u.script_sig = [] ∧ u.witness = []) →
      Psbt.with' tx v = .error (.invalidInput j)) ∧
    (∀ (tx : Transaction) (v : PsbtVersion),
      (∀ u ∈ tx.input, u.script_sig = [] ∧ u.witness = []) →
      0 ≤ tx.version →
      ∃ p, Psbt.with' tx v = .ok p ∧
        p.inputs.length = tx.input.length ∧
        p.outputs.length = tx.output.length ∧
        (∀ j : Nat, p.inputs[j]? = (tx.input[j]?).map fun t =>
          ({ index := j, psbtFields := ⟨[], []⟩, txin := t, required_locktime := none } : Input)) ∧
        (∀ j : Nat, p.outputs[j]? = (tx.output[j]?).map fun t =>
          ({ index := j, psbtFields := ⟨[], []⟩, txout := t } : Output))) := by
  constructor
  · intro tx v j t hj hbad hpre
    have herr := newInputs_error tx.input 0 j t hj hbad hpre
    unfold Psbt.with'
    rw [herr]
    simp
  · intro tx v hgate hver
    obtain ⟨is, hok, hlen, hget⟩ := newInputs_ok tx.input 0 hgate
    have hv : u32TryFromI32 tx.version = some tx.version.toNat := by
      unfold u32TryFromI32
      rw [if_pos hver]
    refine ⟨⟨v, [], tx.version.toNat, tx.lock_time, is, newOutputs 0 tx.output, [], []⟩,
      ?_, hlen, newOutputs_length tx.output 0, ?_, ?_⟩
    · unfold Psbt.with'
      rw [hok, hv]
    · intro j
      simpa using hget j
    · intro j
      simpa using newOutputs_getElem tx.output 0 j

/-- C8 witness: a transaction whose second input carries script-sig data
fails with the malformed-input error at index 1; a clean transaction
succeeds, wrapping its input and output at index 0. -/
theorem C8_unsigned_gate_atomicity_witness :
    Psbt.with' sigTx PsbtVersion.V2 = .error (.invalidInput 1) ∧
    (∃ p, Psbt.with' cleanTx PsbtVersion.V2 = .ok p ∧
      p.inputs.length = cleanTx.input.length ∧
      p.outputs.length = cleanTx.output.length ∧
      (∀ j : Nat, p.inputs[j]? = (cleanTx.input[j]?).map fun t =>
        ({ index := j, psbtFields := ⟨[], []⟩, txin := t, required_locktime := none } : Input)) ∧
      (∀ j : Nat, p.outputs[j]? = (cleanTx.output[j]?).map fun t =>
        ({ index := j, psbtFields := ⟨[], []⟩, txout := t } : Output))) :=
  ⟨C8_unsigned_gate_atomicity.1 sigTx PsbtVersion.V2 1 badIn (by decide) (by decide) (by decide),
   C8_unsigned_gate_atomicity.2 cleanTx PsbtVersion.V2 (by decide) (by decide)⟩

/-- C9: Legacy→Modern is total on mismatched containers and returns
record sequences of the minimum of the two lengths. -/
theorem C9_mismatch_total_min_length (v0 : PsbtV0) :
    (Psbt.fromV0 v0).inputs.length = min v0.inputs.length v0.unsigned_tx.input.length ∧
    (Psbt.fromV0 v0).outputs.length = min v0.outputs.length v0.unsigned_tx.output.length := by
  constructor
  · show (withInputs 0 _).length = _
    rw [withInputs_length, List.length_zip]
  · show (withOutputs 0 _).length = _
    rw [withOutputs_length, List.length_zip]

/-- C10: the container built by `Psbt::with` carries exactly the version
tag passed as argument; the tag is not coerced to Modern. -/
theorem C10_with_preserves_psbt_version (tx : Transaction) (v : PsbtVersion) (p : Psbt)
    (h : Psbt.with' tx v = .ok p) : p.psbt_version = v := by
  unfold Psbt.with' at h
  rcases hni : newInputs 0 tx.input with e | is
  · rw [hni] at h
    simp at h
  · rw [hni] at h
    rcases hv : u32TryFromI32 tx.version with _ | n
    · rw [hv] at h
      simp at h
    · rw [hv] at h
      simp only [Except.ok.injEq] at h
      subst h
      rfl

/-- C10 witness: `with` under the Legacy tag yields a Legacy-tagged
container. -/
theorem C10_with_preserves_psbt_version_witness :
    Psbt.with' v1Tx PsbtVersion.V0 = .ok v1Psbt ∧ v1Psbt.psbt_version = PsbtVersion.V0 :=
  ⟨rfl, C10_with_preserves_psbt_version v1Tx PsbtVersion.V0 v1Psbt rfl⟩

end DescriptorWallet
